import Mathlib

/-!
Verification development for the mbserver Modbus server (slave).

The Go sources `server.go` and `servetcp.go` are embedded shallowly:
pure computations become Lean functions, the request channel and the
goroutines become an explicit labelled transition system, machine bytes
become `Nat` values (kept below 256 where it matters), and fallible
operations return `Option` or `Except`.

The repository files defining the frame codec (`Framer`, `TCPFrame`,
`NewTCPFrame`) and the exception values (`Success`, `IllegalFunction`,
...) are not part of the provided sources; those definitions are
modelled from the specification document and are marked as such in
their doc comments.  Everything else is translated directly from the
Go code.
-/

set_option autoImplicit false

namespace Mbserver

/-!
## Frame model

Modelled from the spec: a frame carries a transaction identifier, a
protocol identifier, a unit (slave) identifier, a function code and
payload bytes.  Bytes are represented as `Nat` values; on the wire every
byte is below 256.
-/

/-- Modelled from the spec: the wire-level frame of one Modbus TCP
transaction (`TCPFrame` in the repository, absent from the provided
sources).  The 2-byte length field of the envelope is derived from the
payload, so it is not stored. -/
structure TCPFrame where
  transactionID : Nat
  protocolID : Nat
  unitID : Nat
  function : Nat
  data : List Nat
deriving DecidableEq, Repr

/-- Big-endian decoding of two bytes into a 16-bit word. -/
def be16 (hi lo : Nat) : Nat := hi * 256 + lo

/-- Modelled from the spec: `Decode(rawBytes)`, the repository function
`NewTCPFrame`, absent from the provided sources.  The envelope is seven
bytes (transaction id, protocol id, length of the remainder, unit id)
followed by the mandatory one-byte function code and payload.  Decoding
fails when the buffer is shorter than the envelope plus function code,
when the protocol id is nonzero, or when the declared length does not
match the number of remaining bytes after the length field. -/
def NewTCPFrame (packet : List Nat) : Except String TCPFrame :=
  if packet.length < 8 then
    Except.error "frame too short"
  else if be16 (packet.getD 2 0) (packet.getD 3 0) ≠ 0 then
    Except.error "nonzero protocol id"
  else if be16 (packet.getD 4 0) (packet.getD 5 0) ≠ packet.length - 6 then
    Except.error "length mismatch"
  else
    Except.ok
      { transactionID := be16 (packet.getD 0 0) (packet.getD 1 0)
        protocolID := 0
        unitID := packet.getD 6 0
        function := packet.getD 7 0
        data := packet.drop 8 }

/-- Modelled from the spec: `Copy` produces a response frame from the
request frame by copying its fields (a Go value copy). -/
def TCPFrame.Copy (f : TCPFrame) : TCPFrame := f

/-- Modelled from the spec: accessor for the function code. -/
def TCPFrame.GetFunction (f : TCPFrame) : Nat := f.function

/-- Modelled from the spec: `SetPayload` / `SetData` replaces the
payload bytes (the derived length field follows the payload). -/
def TCPFrame.SetData (f : TCPFrame) (d : List Nat) : TCPFrame :=
  { f with data := d }

/-- Modelled from the spec: `SetException` overwrites the high bit of
the function code and substitutes a single exception-code byte as the
payload. -/
def TCPFrame.SetException (f : TCPFrame) (code : Nat) : TCPFrame :=
  { f with function := f.function ||| 128, data := [code] }

/-!
## Exception model

Modelled from the spec: the exception codes form a closed enumeration
and `Success` is a sentinel distinguished by identity.  In Go the
handlers return a pointer `*Exception`; identity of pointers is
modelled by `ExcPtr`: a pointer can be nil, the address of one of the
package-level sentinel variables, or a pointer to a freshly allocated
`Exception` value (which is never identical to a sentinel even when the
numeric codes coincide).
-/

/-- Modelled from the spec: the package-level exception variables of the
repository (`Success`, `IllegalFunction`, ...). -/
inductive Sentinel where
  | success
  | illegalFunction
  | illegalDataAddress
  | illegalDataValue
  | slaveDeviceFailure
deriving DecidableEq, Repr

/-- Numeric wire code of each sentinel exception. -/
def Sentinel.code : Sentinel → Nat
  | .success => 0
  | .illegalFunction => 1
  | .illegalDataAddress => 2
  | .illegalDataValue => 3
  | .slaveDeviceFailure => 4

/-- A Go `*Exception` value as returned by a handler. -/
inductive ExcPtr where
  | nil
  | sentinel (s : Sentinel)
  | fresh (code : Nat)
deriving DecidableEq, Repr

/-- Dereferencing the exception pointer to obtain the one wire byte
(`byte(*exception)` in Go).  Dereferencing nil is a runtime panic,
modelled as `none`; a fresh value is truncated to a byte. -/
def ExcPtr.deref : ExcPtr → Option Nat
  | .nil => none
  | .sentinel s => some s.code
  | .fresh c => some (c % 256)

/-!
## Request context

Go `context.Context` values built with `context.WithValue` form a chain
looked up newest first; this is an association list with the newest
binding in front.
-/

/-- A value stored in a request context: either a Go string or the raw
bytes of a certificate extension (Go converts them with `string(role)`,
which preserves the bytes). -/
inductive CtxVal where
  | str (s : String)
  | bytes (b : List Nat)
deriving DecidableEq, Repr

/-- A request context: newest binding first. -/
abbrev Ctx := List (String × CtxVal)

/-- Lookup in a request context (`ctx.Value`), newest binding first. -/
def ctxValue : Ctx → String → Option CtxVal
  | [], _ => none
  | (k, v) :: t, key => if k = key then some v else ctxValue t key

/-!
## Server, requests and dispatch (`server.go`)

The Go handlers receive `*Server`; in this shallow embedding they
receive the register banks (the mutable data of the server), which
avoids a negative occurrence of `Server` in its own field types.  The
four banks are `Option` lists: `none` is a nil Go slice, as left by
`NewServer`, while `NewServerWithDefaults` allocates them.
-/

/-- The register memory of the server: discrete inputs, coils, holding
registers and input registers (`nil` when unallocated). -/
structure Banks where
  DiscreteInputs : Option (List Nat)
  Coils : Option (List Nat)
  HoldingRegisters : Option (List Nat)
  InputRegisters : Option (List Nat)

/-- `FunctionHandler` from `server.go`: a native Modbus function code
handler. -/
abbrev FunctionHandler := Banks → TCPFrame → List Nat × ExcPtr

/-- `ContextFunctionHandler` from `server.go`: an external handler that
also receives the request context. -/
abbrev ContextFunctionHandler := Ctx → TCPFrame → List Nat × ExcPtr

/-- The Modbus server state from `server.go`.  The two 256-entry
handler arrays are total functions from the byte-valued function code;
the request channel and listener bookkeeping belong to the transition
system below, not to this data structure. -/
structure Server where
  Debug : Bool
  banks : Banks
  function : Nat → Option FunctionHandler
  handlers : Nat → Option ContextFunctionHandler

/-- `Request` from `server.go`: context, connection and decoded frame.
The connection is identified by a number. -/
structure Request where
  ctx : Ctx
  conn : Nat
  frame : TCPFrame
deriving DecidableEq, Repr

/-- `NewServer` from `server.go`: no banks are allocated and no
handlers are registered (the request channel it creates, and the
handler goroutine it starts, live in the transition system below). -/
def NewServer : Server :=
  { Debug := false
    banks :=
      { DiscreteInputs := none
        Coils := none
        HoldingRegisters := none
        InputRegisters := none }
    function := fun _ => none
    handlers := fun _ => none }

/-- `RegisterFunctionHandler` from `server.go`. -/
def RegisterFunctionHandler (s : Server) (code : Nat) (h : FunctionHandler) : Server :=
  { s with function := fun c => if c = code then some h else s.function c }

/-- `RegisterContextFunctionHandler` from `server.go`. -/
def RegisterContextFunctionHandler (s : Server) (code : Nat) (h : ContextFunctionHandler) : Server :=
  { s with handlers := fun c => if c = code then some h else s.handlers c }

/-- `handle` from `server.go`.  The response starts as a copy of the
request frame; a registered native handler takes precedence, then a
registered context handler, and otherwise the exception is the address
of `IllegalFunction`.  `SetData` is applied to the handler result, and
`SetException` is applied exactly when the returned exception pointer
is not the address of `Success`.  Passing a nil exception pointer to
`SetException` dereferences nil, a panic: the result is `none` and no
response frame exists. -/
def handle (s : Server) (request : Request) : Option TCPFrame :=
  let response := request.frame.Copy
  let fn := request.frame.GetFunction
  let invoked : (List Nat × ExcPtr) × TCPFrame :=
    match s.function fn with
    | some h =>
      let de := h s.banks request.frame
      (de, response.SetData de.1)
    | none =>
      match s.handlers fn with
      | some h =>
        let de := h request.ctx request.frame
        (de, response.SetData de.1)
      | none => (([], ExcPtr.sentinel Sentinel.illegalFunction), response)
  if invoked.1.2 = ExcPtr.sentinel Sentinel.success then
    some invoked.2
  else
    match invoked.1.2.deref with
    | some code => some (invoked.2.SetException code)
    | none => none

/-- The response built from one handler result `(data, exception)` for
a request frame: `SetData` then, unless the exception pointer is the
address of `Success`, `SetException` with the dereferenced code. -/
def respondWith (frame : TCPFrame) (de : List Nat × ExcPtr) : Option TCPFrame :=
  let response := (frame.Copy).SetData de.1
  if de.2 = ExcPtr.sentinel Sentinel.success then
    some response
  else
    match de.2.deref with
    | some code => some (response.SetException code)
    | none => none

/-!
## TLS identity extraction (`servetcp.go`, lines 32-59)

A connection goroutine, when the connection is a TLS connection whose
handshake succeeded, scans the verified peer certificates for the
extension with the fixed object identifier 1.3.6.1.4.1.50316.802.1 and
records the subject common name and the extension value.
-/

/-- An X.509 extension: object identifier and raw value bytes. -/
structure Extension where
  Id : List Nat
  Value : List Nat
deriving DecidableEq, Repr

/-- The parts of an X.509 certificate read by `accept`: the subject
common name and the extension list. -/
structure Certificate where
  CommonName : String
  Extensions : List Extension
deriving DecidableEq, Repr

/-- The fixed role object identifier from `servetcp.go`. -/
def roleID : List Nat := [1, 3, 6, 1, 4, 1, 50316, 802, 1]

/-- The inner loop of the scan: fold over the extensions of one
certificate, updating the `(user, role)` pair on every extension whose
identifier equals `roleID` (a later match overwrites an earlier one,
as in the Go loop). -/
def scanExts (cn : String) (acc : String × Option (List Nat)) :
    List Extension → String × Option (List Nat)
  | [] => acc
  | ext :: rest =>
    if ext.Id = roleID then scanExts cn (cn, some ext.Value) rest
    else scanExts cn acc rest

/-- The certificate scan of `accept` (`servetcp.go` lines 49-58):
`user` starts as the empty string and `role` as nil; every extension
of every peer certificate whose identifier equals `roleID` sets `user`
to that certificate subject common name and `role` to the extension
value. -/
def scanCerts : List Certificate → String × Option (List Nat)
  | certs => scanCerts.go ("", none) certs
where
  go (acc : String × Option (List Nat)) :
      List Certificate → String × Option (List Nat)
    | [] => acc
    | c :: rest => go (scanExts c.CommonName acc c.Extensions) rest

/-- The per-frame context construction of the read loop (`servetcp.go`
lines 82-91): start from the background context, bind the remote host
under "X-Forwarded-For" when the remote address splits, and, exactly
when `role` is not nil, bind "Modbus-User" to `user` and "Modbus-Role"
to the extension bytes. -/
def buildCtx (host : Option String) (user : String)
    (role : Option (List Nat)) : Ctx :=
  let ctx : Ctx := []
  let ctx : Ctx :=
    match host with
    | some h => ("X-Forwarded-For", CtxVal.str h) :: ctx
    | none => ctx
  match role with
  | some r => ("Modbus-Role", CtxVal.bytes r) :: ("Modbus-User", CtxVal.str user) :: ctx
  | none => ctx

/-!
## The connection read loop (`servetcp.go`, lines 61-96)

The loop body allocates a fresh 512-byte buffer, performs one read,
truncates the buffer to the bytes of that one read, and hands exactly
those bytes to `NewTCPFrame`; nothing is carried over between
iterations.  The loop is embedded as a function from the sequence of
outcomes of the successive `conn.Read` calls to the sequence of
observable actions of the loop.  A read outcome is the pair returned
by `conn.Read` on the 512-byte buffer: either bytes (already truncated
to the read count, hence at most 512 of them) or an error, where
end-of-stream (`io.EOF`) is distinguished.
-/

/-- Outcome of one `conn.Read` on the fresh 512-byte buffer. -/
inductive ReadResult where
  | ok (bytes : List Nat)
  | eof
  | err (msg : String)
deriving DecidableEq, Repr

/-- Observable action of the read loop: a log line, the submission of
a request to the request channel, or the return of the goroutine. -/
inductive LoopEvent where
  | logLine (msg : String)
  | submit (req : Request)
  | terminated
deriving DecidableEq, Repr

/-- The read loop of `accept` (`servetcp.go` lines 61-96) over a list
of successive read outcomes, for a connection with remote host `host`,
extracted identity `user` and role `role`, and connection identifier
`connId`.  A non-EOF read error is logged and ends the loop; EOF ends
the loop silently; a decode error is logged and ends the loop; a
decoded frame is submitted with a freshly built context and the loop
continues.  An exhausted outcome list means the loop is still blocked
in `conn.Read`. -/
def readLoop (host : Option String) (user : String)
    (role : Option (List Nat)) (connId : Nat) :
    List ReadResult → List LoopEvent
  | [] => []
  | ReadResult.eof :: _ => [LoopEvent.terminated]
  | ReadResult.err msg :: _ =>
    [LoopEvent.logLine ("read error " ++ msg), LoopEvent.terminated]
  | ReadResult.ok bytes :: rest =>
    match NewTCPFrame bytes with
    | Except.error e =>
      [LoopEvent.logLine ("bad packet error " ++ e), LoopEvent.terminated]
    | Except.ok frame =>
      LoopEvent.submit ⟨buildCtx host user role, connId, frame⟩ ::
        readLoop host user role connId rest

/-!
## Request serialization (`server.go` lines 115-121, `servetcp.go` line 95)

The request channel `requestChan` is created with `make(chan *Request)`
and is therefore unbuffered: a send `s.requestChan <- request` and the
receive `request := <-s.requestChan` complete together, as a
rendezvous.  The handler goroutine then runs `handle` and writes the
response before looping back to the receive.

This is embedded as a labelled transition system over two connection
read loops (indexed by `Bool`) and the single handler goroutine.
Requests on a connection are identified by their read index: request
`n` is the one returned by the `(n+1)`-th successful `conn.Read` of
that connection.  The trace records, newest first, the completed read
calls, the channel rendezvous (the dequeue of a request), and the
response writes.
-/

/-- Control state of one connection read loop: about to call
`conn.Read` for request `next`, or blocked in the channel send of
request `n`. -/
inductive RLState where
  | ready (next : Nat)
  | submitting (n : Nat)
deriving DecidableEq, Repr

/-- Control state of the handler goroutine: blocked in the channel
receive, or holding the dequeued request `n` of connection `c` (running
`handle` and the response write). -/
inductive HState where
  | recv
  | running (c : Bool) (n : Nat)
deriving DecidableEq, Repr

/-- Trace event: a completed `conn.Read` of request `n` on connection
`c`, the channel rendezvous dequeuing that request, or the write of its
response. -/
inductive Ev where
  | rd (c : Bool) (n : Nat)
  | ho (c : Bool) (n : Nat)
  | wr (c : Bool) (n : Nat)
deriving DecidableEq, Repr

/-- Global state: the two read loops, the handler goroutine, and the
trace (newest event first). -/
structure Sys where
  rl : Bool → RLState
  hs : HState
  tr : List Ev

/-- All goroutines at their initial point, empty trace. -/
def Sys.start : Sys := ⟨fun _ => RLState.ready 0, HState.recv, []⟩

/-- Interleaving semantics of the pipeline.  `read`: a read loop at its
`conn.Read` obtains the next request and moves to the channel send.
`handoff`: the unbuffered-channel rendezvous between a read loop
blocked in the send and the handler goroutine blocked in the receive;
both proceed, the read loop back to `conn.Read` and the handler into
`handle`.  `write`: the handler finishes `handle` and the response
write and loops back to the receive. -/
inductive Step : Sys → Sys → Prop
  | read (s : Sys) (c : Bool) (n : Nat) :
      s.rl c = RLState.ready n →
      Step s ⟨fun b => if b = c then RLState.submitting n else s.rl b, s.hs,
        Ev.rd c n :: s.tr⟩
  | handoff (s : Sys) (c : Bool) (n : Nat) :
      s.rl c = RLState.submitting n → s.hs = HState.recv →
      Step s ⟨fun b => if b = c then RLState.ready (n + 1) else s.rl b,
        HState.running c n, Ev.ho c n :: s.tr⟩
  | write (s : Sys) (c : Bool) (n : Nat) :
      s.hs = HState.running c n →
      Step s ⟨s.rl, HState.recv, Ev.wr c n :: s.tr⟩

/-- Reachability from the initial state. -/
inductive Reach : Sys → Prop
  | start : Reach Sys.start
  | step {s t : Sys} : Reach s → Step s t → Reach t

/-- Read indices recorded for connection `c`, newest first. -/
def rdsOf (c : Bool) : List Ev → List Nat
  | [] => []
  | Ev.rd c' n :: t => if c' = c then n :: rdsOf c t else rdsOf c t
  | _ :: t => rdsOf c t

/-- Rendezvous (dequeue) indices recorded for connection `c`, newest
first. -/
def hosOf (c : Bool) : List Ev → List Nat
  | [] => []
  | Ev.ho c' n :: t => if c' = c then n :: hosOf c t else hosOf c t
  | _ :: t => hosOf c t

/-- Response-write indices recorded for connection `c`, newest
first. -/
def wrsOf (c : Bool) : List Ev → List Nat
  | [] => []
  | Ev.wr c' n :: t => if c' = c then n :: wrsOf c t else wrsOf c t
  | _ :: t => wrsOf c t

/-- The list `[n-1, ..., 1, 0]`: the indices below `n`, descending. -/
def countdown : Nat → List Nat
  | 0 => []
  | n + 1 => n :: countdown n

/-- Invariant tying each goroutine control state to the trace: the
reads, dequeues and writes of each connection are exactly the initial
segments of the request indices, with the read loop one read ahead
while blocked in the send and the handler one dequeue ahead of the
writes while running a request. -/
def Inv (s : Sys) : Prop :=
  ∀ c : Bool,
    (∀ n, s.rl c = RLState.ready n →
      rdsOf c s.tr = countdown n ∧ hosOf c s.tr = countdown n) ∧
    (∀ n, s.rl c = RLState.submitting n →
      rdsOf c s.tr = countdown (n + 1) ∧ hosOf c s.tr = countdown n) ∧
    (s.hs = HState.recv → wrsOf c s.tr = hosOf c s.tr) ∧
    (∀ m, s.hs = HState.running c m →
      hosOf c s.tr = countdown (m + 1) ∧ wrsOf c s.tr = countdown m) ∧
    (∀ c' m, s.hs = HState.running c' m → c' ≠ c →
      wrsOf c s.tr = hosOf c s.tr)

/-!
## Concrete instances

Concrete servers, requests, certificates and executions used to
evaluate the theorems below on explicit inputs.
-/

/-- State after connection `true` reads its first request. -/
def sys1 : Sys :=
  ⟨fun b => if b = true then RLState.submitting 0 else Sys.start.rl b,
    Sys.start.hs, Ev.rd true 0 :: Sys.start.tr⟩

/-- State after request 0 of connection `true` is dequeued. -/
def sys2 : Sys :=
  ⟨fun b => if b = true then RLState.ready 1 else sys1.rl b,
    HState.running true 0, Ev.ho true 0 :: sys1.tr⟩

/-- State after connection `true` reads request 1 while request 0 is
still being processed: no response has been written yet. -/
def sys3 : Sys :=
  ⟨fun b => if b = true then RLState.submitting 1 else sys2.rl b,
    sys2.hs, Ev.rd true 1 :: sys2.tr⟩

/-- State after the response to request 0 is written. -/
def sys2w : Sys := ⟨sys2.rl, HState.recv, Ev.wr true 0 :: sys2.tr⟩

/-- State after connection `true` reads request 1. -/
def sys3w : Sys :=
  ⟨fun b => if b = true then RLState.submitting 1 else sys2w.rl b,
    sys2w.hs, Ev.rd true 1 :: sys2w.tr⟩

/-- State after request 1 of connection `true` is dequeued. -/
def sys4w : Sys :=
  ⟨fun b => if b = true then RLState.ready 2 else sys3w.rl b,
    HState.running true 1, Ev.ho true 1 :: sys3w.tr⟩

/-- State after the response to request 1 is written. -/
def sys5w : Sys := ⟨sys4w.rl, HState.recv, Ev.wr true 1 :: sys4w.tr⟩

/-- The trace of `sys5w` past its newest event. -/
def trW : List Ev :=
  [Ev.ho true 1, Ev.rd true 1, Ev.wr true 0, Ev.ho true 0, Ev.rd true 0]

/-- A request with function code 99 (the unknown-function scenario). -/
def req99 : Request := ⟨[], 0, ⟨0, 0, 1, 99, [0]⟩⟩

/-- A request with function code 7. -/
def req7 : Request := ⟨[], 0, ⟨0, 0, 1, 7, []⟩⟩

/-- A request with function code 3 (read holding registers). -/
def req3 : Request := ⟨[], 0, ⟨0, 0, 1, 3, [0, 0, 0, 2]⟩⟩

/-- A request with function code 5. -/
def req5 : Request := ⟨[], 0, ⟨0, 0, 1, 5, []⟩⟩

/-- A handler returning a nil exception pointer. -/
def nilHandler : FunctionHandler := fun _ _ => ([], ExcPtr.nil)

/-- A server whose only handler, for code 7, returns a nil exception
pointer. -/
def serverNil : Server :=
  { NewServer with function := fun c => if c = 7 then some nilHandler else none }

/-- A handler returning a freshly allocated exception whose numeric
code coincides with the code of `Success`. -/
def fresh0Handler : FunctionHandler := fun _ _ => ([2], ExcPtr.fresh 0)

/-- A context handler returning a nil exception pointer. -/
def ctxNilHandler : ContextFunctionHandler := fun _ _ => ([], ExcPtr.nil)

/-- A server whose only handler, for code 7, is the context handler
returning a nil exception pointer. -/
def serverCtxNil : Server :=
  { NewServer with handlers := fun c => if c = 7 then some ctxNilHandler else none }

/-- A context handler returning data and the `Success` sentinel. -/
def ctxOkHandler : ContextFunctionHandler :=
  fun _ _ => ([6], ExcPtr.sentinel Sentinel.success)

/-- A server whose only handler, for code 9, is that successful
context handler. -/
def serverCtxOk : Server :=
  { NewServer with handlers := fun c => if c = 9 then some ctxOkHandler else none }

/-- A request with function code 9. -/
def req9 : Request := ⟨[], 0, ⟨0, 0, 1, 9, []⟩⟩

/-- A server whose only handler, for code 7, returns that fresh
zero-code exception. -/
def serverFresh : Server :=
  { NewServer with function := fun c => if c = 7 then some fresh0Handler else none }

/-- A handler returning payload data together with a non-Success
exception. -/
def failHandler : FunctionHandler :=
  fun _ _ => ([9, 9], ExcPtr.sentinel Sentinel.slaveDeviceFailure)

/-- A server whose only handler, for code 3, is `failHandler`. -/
def serverFail : Server :=
  { NewServer with function := fun c => if c = 3 then some failHandler else none }

/-- A native handler for code 5. -/
def nativeFive : FunctionHandler :=
  fun _ _ => ([10], ExcPtr.sentinel Sentinel.success)

/-- A context handler for code 5 returning different data. -/
def ctxFive : ContextFunctionHandler :=
  fun _ _ => ([20], ExcPtr.sentinel Sentinel.success)

/-- A server with both a native and a context handler registered for
code 5. -/
def serverBoth : Server :=
  { NewServer with
      function := fun c => if c = 5 then some nativeFive else none
      handlers := fun c => if c = 5 then some ctxFive else none }

/-- The bytes of the string "operator". -/
def operatorBytes : List Nat := [111, 112, 101, 114, 97, 116, 111, 114]

/-- A certificate carrying the role extension set to "operator". -/
def opCert : Certificate := ⟨"alice", [⟨roleID, operatorBytes⟩]⟩

/-- A certificate without the role extension. -/
def plainCert : Certificate := ⟨"bob", [⟨[2, 5, 29, 15], [3]⟩]⟩

/-- A well-formed nine-byte request packet: transaction 1, protocol 0,
length 3, unit 17, function 3, one data byte. -/
def goodPacket : List Nat := [0, 1, 0, 0, 0, 3, 17, 3, 9]

/-- The frame encoded by `goodPacket`. -/
def goodFrame : TCPFrame := ⟨1, 0, 17, 3, [9]⟩

end Mbserver

namespace Mbserver

/-- Sanity check: on a fresh server an unknown function code yields
the IllegalFunction exception frame. -/
theorem handle_smoke :
    handle NewServer ⟨[], 0, ⟨1, 0, 1, 99, [5]⟩⟩ = some ⟨1, 0, 1, 99 ||| 128, [1]⟩ := by
  decide

/-! ### Trace bookkeeping lemmas -/

@[simp] theorem rdsOf_nil (c : Bool) : rdsOf c [] = [] := rfl

@[simp] theorem rdsOf_rd (c c' : Bool) (n : Nat) (t : List Ev) :
    rdsOf c (Ev.rd c' n :: t) = if c' = c then n :: rdsOf c t else rdsOf c t := rfl

@[simp] theorem rdsOf_ho (c c' : Bool) (n : Nat) (t : List Ev) :
    rdsOf c (Ev.ho c' n :: t) = rdsOf c t := rfl

@[simp] theorem rdsOf_wr (c c' : Bool) (n : Nat) (t : List Ev) :
    rdsOf c (Ev.wr c' n :: t) = rdsOf c t := rfl

@[simp] theorem hosOf_nil (c : Bool) : hosOf c [] = [] := rfl

@[simp] theorem hosOf_rd (c c' : Bool) (n : Nat) (t : List Ev) :
    hosOf c (Ev.rd c' n :: t) = hosOf c t := rfl

@[simp] theorem hosOf_ho (c c' : Bool) (n : Nat) (t : List Ev) :
    hosOf c (Ev.ho c' n :: t) = if c' = c then n :: hosOf c t else hosOf c t := rfl

@[simp] theorem hosOf_wr (c c' : Bool) (n : Nat) (t : List Ev) :
    hosOf c (Ev.wr c' n :: t) = hosOf c t := rfl

@[simp] theorem wrsOf_nil (c : Bool) : wrsOf c [] = [] := rfl

@[simp] theorem wrsOf_rd (c c' : Bool) (n : Nat) (t : List Ev) :
    wrsOf c (Ev.rd c' n :: t) = wrsOf c t := rfl

@[simp] theorem wrsOf_ho (c c' : Bool) (n : Nat) (t : List Ev) :
    wrsOf c (Ev.ho c' n :: t) = wrsOf c t := rfl

@[simp] theorem wrsOf_wr (c c' : Bool) (n : Nat) (t : List Ev) :
    wrsOf c (Ev.wr c' n :: t) = if c' = c then n :: wrsOf c t else wrsOf c t := rfl

@[simp] theorem countdown_zero : countdown 0 = [] := rfl

@[simp] theorem countdown_succ (n : Nat) : countdown (n + 1) = n :: countdown n := rfl

theorem mem_countdown {m n : Nat} : m ∈ countdown n ↔ m < n := by
  induction n with
  | zero => simp
  | succ k ih => simp [ih]; omega

theorem countdown_eq_append {k i : Nat} {A B : List Nat}
    (h : countdown k = A ++ i :: B) : B = countdown i := by
  induction k generalizing A with
  | zero => simp at h
  | succ k ih =>
    rw [countdown_succ] at h
    cases A with
    | nil =>
      simp at h
      obtain ⟨h1, h2⟩ := h
      rw [← h2, h1]
    | cons a A' =>
      simp at h
      exact ih h.2

theorem wrsOf_append (c : Bool) (l₁ l₂ : List Ev) :
    wrsOf c (l₁ ++ l₂) = wrsOf c l₁ ++ wrsOf c l₂ := by
  induction l₁ with
  | nil => simp
  | cons e t ih =>
    cases e with
    | rd c' n => simp [ih]
    | ho c' n => simp [ih]
    | wr c' n => by_cases h : c' = c <;> simp [h, ih]

theorem wr_mem_iff {c : Bool} {n : Nat} {tr : List Ev} :
    Ev.wr c n ∈ tr ↔ n ∈ wrsOf c tr := by
  induction tr with
  | nil => simp
  | cons e t ih =>
    cases e with
    | rd c' m => simp [ih]
    | ho c' m => simp [ih]
    | wr c' m =>
      by_cases h : c' = c
      · subst h
        simp [ih]
      · have h' : c ≠ c' := fun hh => h hh.symm
        simp [ih, h, h']

theorem ho_mem_iff {c : Bool} {n : Nat} {tr : List Ev} :
    Ev.ho c n ∈ tr ↔ n ∈ hosOf c tr := by
  induction tr with
  | nil => simp
  | cons e t ih =>
    cases e with
    | rd c' m => simp [ih]
    | wr c' m => simp [ih]
    | ho c' m =>
      by_cases h : c' = c
      · subst h
        simp [ih]
      · have h' : c ≠ c' := fun hh => h hh.symm
        simp [ih, h, h']

/-! ### The serialization invariant -/

theorem reach_inv {s : Sys} (h : Reach s) : Inv s := by
  induction h with
  | start =>
    intro c
    refine ⟨?_, ?_, ?_, ?_, ?_⟩
    · intro n hn
      have hn' : RLState.ready 0 = RLState.ready n := hn
      injection hn' with hn0
      subst hn0
      exact ⟨rfl, rfl⟩
    · intro n hn
      simp [Sys.start] at hn
    · intro _
      rfl
    · intro m hm
      simp [Sys.start] at hm
    · intro c' m hm _
      simp [Sys.start] at hm
  | step hr hstep ih =>
    cases hstep with
    | read c₀ n₀ hrl =>
      intro c
      obtain ⟨ih1, ih2, ih3, ih4, ih5⟩ := ih c
      by_cases hc : c = c₀
      · subst hc
        refine ⟨?_, ?_, ?_, ?_, ?_⟩
        · intro n hn
          simp at hn
        · intro n hn
          simp at hn
          subst hn
          obtain ⟨h1, h2⟩ := ih1 n₀ hrl
          exact ⟨by simp [h1], by simp [h2]⟩
        · intro hh
          simpa using ih3 hh
        · intro m hm
          simpa using ih4 m hm
        · intro c' m hm hne
          simpa using ih5 c' m hm hne
      · have hc' : ¬ c₀ = c := fun hh => hc hh.symm
        refine ⟨?_, ?_, ?_, ?_, ?_⟩
        · intro n hn
          simp [hc] at hn
          obtain ⟨h1, h2⟩ := ih1 n hn
          exact ⟨by simp [hc', h1], by simp [h2]⟩
        · intro n hn
          simp [hc] at hn
          obtain ⟨h1, h2⟩ := ih2 n hn
          exact ⟨by simp [hc', h1], by simp [h2]⟩
        · intro hh
          simpa using ih3 hh
        · intro m hm
          simpa using ih4 m hm
        · intro c' m hm hne
          simpa using ih5 c' m hm hne
    | handoff c₀ n₀ hrl hh =>
      intro c
      obtain ⟨ih1, ih2, ih3, ih4, ih5⟩ := ih c
      by_cases hc : c = c₀
      · subst hc
        obtain ⟨h1, h2⟩ := ih2 n₀ hrl
        refine ⟨?_, ?_, ?_, ?_, ?_⟩
        · intro n hn
          simp at hn
          subst hn
          exact ⟨by simp [h1], by simp [h2]⟩
        · intro n hn
          simp at hn
        · intro hcontra
          simp at hcontra
        · intro m hm
          simp at hm
          subst hm
          refine ⟨by simp [h2], ?_⟩
          have h3 := ih3 hh
          simp [h3, h2]
        · intro c' m hm hne
          simp at hm
          exact absurd hm.1.symm hne
      · have hc' : ¬ c₀ = c := fun hh2 => hc hh2.symm
        refine ⟨?_, ?_, ?_, ?_, ?_⟩
        · intro n hn
          simp [hc] at hn
          obtain ⟨h1, h2⟩ := ih1 n hn
          exact ⟨by simp [h1], by simp [hc', h2]⟩
        · intro n hn
          simp [hc] at hn
          obtain ⟨h1, h2⟩ := ih2 n hn
          exact ⟨by simp [h1], by simp [hc', h2]⟩
        · intro hcontra
          simp at hcontra
        · intro m hm
          simp at hm
          exact absurd hm.1 hc'
        · intro c' m hm hne
          have h3 := ih3 hh
          simp [hc', h3]
    | write c₀ n₀ hh =>
      intro c
      obtain ⟨ih1, ih2, ih3, ih4, ih5⟩ := ih c
      by_cases hc : c = c₀
      · subst hc
        obtain ⟨h1, h2⟩ := ih4 n₀ hh
        refine ⟨?_, ?_, ?_, ?_, ?_⟩
        · intro n hn
          simpa using ih1 n hn
        · intro n hn
          simpa using ih2 n hn
        · intro _
          simp [h1, h2]
        · intro m hm
          simp at hm
        · intro c' m hm hne
          simp at hm
      · have hc' : ¬ c₀ = c := fun hh2 => hc hh2.symm
        refine ⟨?_, ?_, ?_, ?_, ?_⟩
        · intro n hn
          simpa using ih1 n hn
        · intro n hn
          simpa using ih2 n hn
        · intro _
          have h5 := ih5 c₀ n₀ hh (fun hh3 => hc hh3.symm)
          simp [hc', h5]
        · intro m hm
          simp at hm
        · intro c' m hm hne
          simp at hm

/-- In every reachable state, the responses written for a connection
and the dequeues performed for it are initial segments of the request
indices, and the dequeue count exceeds the write count by at most
one. -/
theorem inv_counts {s : Sys} (h : Inv s) (c : Bool) :
    ∃ w k, wrsOf c s.tr = countdown w ∧ hosOf c s.tr = countdown k ∧
      w ≤ k ∧ k ≤ w + 1 := by
  obtain ⟨ih1, ih2, ih3, ih4, ih5⟩ := h c
  cases hh : s.hs with
  | recv =>
    have h3 := ih3 hh
    cases hrl : s.rl c with
    | ready n =>
      obtain ⟨_, h2⟩ := ih1 n hrl
      exact ⟨n, n, by rw [h3, h2], h2, Nat.le_refl n, Nat.le_succ n⟩
    | submitting n =>
      obtain ⟨_, h2⟩ := ih2 n hrl
      exact ⟨n, n, by rw [h3, h2], h2, Nat.le_refl n, Nat.le_succ n⟩
  | running c' m =>
    by_cases hc : c' = c
    · subst hc
      obtain ⟨h1, h2⟩ := ih4 m hh
      exact ⟨m, m + 1, h2, h1, Nat.le_succ m, Nat.le_refl (m + 1)⟩
    · have h5 := ih5 c' m hh hc
      cases hrl : s.rl c with
      | ready n =>
        obtain ⟨_, h2⟩ := ih1 n hrl
        exact ⟨n, n, by rw [h5, h2], h2, Nat.le_refl n, Nat.le_succ n⟩
      | submitting n =>
        obtain ⟨_, h2⟩ := ih2 n hrl
        exact ⟨n, n, by rw [h5, h2], h2, Nat.le_refl n, Nat.le_succ n⟩

/-- C1 counterexample: it is not the case that in every reachable
state a completed read of request N+1 implies that the response to
request N has been written.  After reading request 0, handing it off
and reading request 1, the trace contains the read of request 1 of
connection `true` but not the write of response 0: the unbuffered
channel send returns at the rendezvous, before the handler processes
the request and writes the response. -/
theorem read_ahead_of_write_cex :
    ¬ ∀ s : Sys, Reach s → ∀ (c : Bool) (n : Nat),
        Ev.rd c (n + 1) ∈ s.tr → Ev.wr c n ∈ s.tr := by
  intro hcl
  have hr : Reach sys3 :=
    Reach.step
      (Reach.step
        (Reach.step Reach.start (Step.read Sys.start true 0 rfl))
        (Step.handoff sys1 true 0 rfl rfl))
      (Step.read sys2 true 1 rfl)
  have hw := hcl sys3 hr true 0 (by decide)
  exact absurd hw (by decide)

/-- C1 (amended): submitting a request blocks the read loop only until
the request is dequeued by the handler goroutine, so the loop may read
request N+1 while request N is still being processed; but request N+1
is never dequeued before the response to request N has been written.
In every reachable state, a dequeue of request N+1 of a connection
implies the write of response N of that connection. -/
theorem handoff_blocks_until_prior_write {s : Sys} (h : Reach s)
    (c : Bool) (n : Nat) (hho : Ev.ho c (n + 1) ∈ s.tr) :
    Ev.wr c n ∈ s.tr := by
  obtain ⟨w, k, hw, hk, hwk, hkw⟩ := inv_counts (reach_inv h) c
  rw [ho_mem_iff, hk, mem_countdown] at hho
  rw [wr_mem_iff, hw, mem_countdown]
  omega

/-- Witness for the amended C1 at a concrete execution: request 1 of
connection `true` has been dequeued in `sys4w`, and the response to
request 0 is indeed in the trace. -/
theorem handoff_blocks_until_prior_write_witness :
    Ev.ho true 1 ∈ sys4w.tr ∧ Ev.wr true 0 ∈ sys4w.tr :=
  ⟨by decide,
    handoff_blocks_until_prior_write
      (Reach.step
        (Reach.step
          (Reach.step
            (Reach.step
              (Reach.step Reach.start (Step.read Sys.start true 0 rfl))
              (Step.handoff sys1 true 0 rfl rfl))
            (Step.write sys2 true 0 rfl))
          (Step.read sys2w true 1 rfl))
        (Step.handoff sys3w true 1 rfl rfl))
      true 0 (by decide)⟩

/-- C2: responses on one connection are written in the order the
requests were read.  In every reachable state, if the write of
response `i` of connection `c` appears in the trace and the write of
response `j` of the same connection appears later in the list (hence
happened earlier), then `j < i`: request `j` was read before request
`i`. -/
theorem per_connection_response_order {s : Sys} (h : Reach s)
    (c : Bool) (i j : Nat) (l₁ l₂ : List Ev)
    (htr : s.tr = l₁ ++ Ev.wr c i :: l₂) (hj : Ev.wr c j ∈ l₂) :
    j < i := by
  obtain ⟨w, _, hw, _, _, _⟩ := inv_counts (reach_inv h) c
  have hsplit : countdown w = wrsOf c l₁ ++ (i :: wrsOf c l₂) := by
    rw [← hw, htr, wrsOf_append]
    simp
  have hl₂ : wrsOf c l₂ = countdown i := countdown_eq_append hsplit
  have hjm : j ∈ wrsOf c l₂ := wr_mem_iff.mp hj
  rw [hl₂, mem_countdown] at hjm
  exact hjm

/-- Witness for C2 at a concrete execution: in `sys5w` the trace is
the write of response 1 followed (going back in time) by the write of
response 0, and indeed 0 < 1. -/
theorem per_connection_response_order_witness :
    sys5w.tr = [] ++ Ev.wr true 1 :: trW ∧ Ev.wr true 0 ∈ trW ∧ 0 < 1 :=
  ⟨by decide, by decide,
    per_connection_response_order
      (Reach.step
        (Reach.step
          (Reach.step
            (Reach.step
              (Reach.step
                (Reach.step Reach.start (Step.read Sys.start true 0 rfl))
                (Step.handoff sys1 true 0 rfl rfl))
              (Step.write sys2 true 0 rfl))
            (Step.read sys2w true 1 rfl))
          (Step.handoff sys3w true 1 rfl rfl))
        (Step.write sys4w true 1 rfl))
      true 1 0 [] trW (by decide) (by decide)⟩

/-! ### Dispatch theorems -/

/-- Helper: when neither handler table has an entry for the request
function code, `handle` builds the IllegalFunction exception response:
the request frame with the high bit set on the function code and a
single payload byte 1. -/
theorem handle_no_handler {s : Server} {request : Request}
    (h1 : s.function request.frame.GetFunction = none)
    (h2 : s.handlers request.frame.GetFunction = none) :
    handle s request =
      some { request.frame with
              function := request.frame.function ||| 128, data := [1] } := by
  simp [handle, h1, h2, TCPFrame.Copy, TCPFrame.SetException, ExcPtr.deref,
    Sentinel.code]

/-- C3: a request whose function code has neither a native nor a
context handler registered produces an exception response carrying
IllegalFunction: function code OR 0x80 and the single payload byte
0x01. -/
theorem handle_unregistered_illegal_function (s : Server) (request : Request)
    (h1 : s.function request.frame.GetFunction = none)
    (h2 : s.handlers request.frame.GetFunction = none) :
    handle s request =
      some { request.frame with
              function := request.frame.function ||| 128,
              data := [Sentinel.illegalFunction.code] } :=
  handle_no_handler h1 h2

/-- Witness for C3: the spec scenario of an unknown function code 99
on a fresh server. -/
theorem handle_unregistered_illegal_function_witness :
    NewServer.function 99 = none ∧ NewServer.handlers 99 = none ∧
    handle NewServer req99 =
      some { req99.frame with
              function := req99.frame.function ||| 128,
              data := [Sentinel.illegalFunction.code] } :=
  ⟨rfl, rfl, handle_unregistered_illegal_function NewServer req99 rfl rfl⟩

/-- C4 counterexample: a handler returning a nil exception pointer
does not yield an exception-marked response; `SetException`
dereferences nil, a panic, so no response frame exists at all
(`handle` is `none`). -/
theorem nil_exception_no_response_cex :
    serverNil.function 7 = some nilHandler ∧
    (nilHandler serverNil.banks req7.frame).2 = ExcPtr.nil ∧
    handle serverNil req7 = none :=
  ⟨rfl, rfl, by decide⟩

/-- C4 (amended): for every handler invocation, native or
context-aware, `handle` applies `SetException` exactly when the
exception pointer returned by the handler is not identically the
`Success` sentinel; a distinct exception value that merely equals the
numeric code of `Success` still yields an exception-marked response,
while a nil exception pointer makes `SetException` dereference nil, a
panic, so no response is produced at all.  On each path the response
is the plain data response when the `Success` sentinel is returned,
and otherwise `SetException` maps the dereferenced pointer (so `none`
for nil, the exception-marked frame for every actual exception
value). -/
theorem set_exception_iff_not_success (s : Server) (request : Request)
    (d : List Nat) (e : ExcPtr) :
    (∀ h : FunctionHandler, s.function request.frame.GetFunction = some h →
      h s.banks request.frame = (d, e) →
      (e = ExcPtr.sentinel Sentinel.success →
        handle s request = some (request.frame.SetData d)) ∧
      (e ≠ ExcPtr.sentinel Sentinel.success →
        handle s request =
          Option.map (fun code => (request.frame.SetData d).SetException code)
            e.deref)) ∧
    (∀ h : ContextFunctionHandler,
      s.function request.frame.GetFunction = none →
      s.handlers request.frame.GetFunction = some h →
      h request.ctx request.frame = (d, e) →
      (e = ExcPtr.sentinel Sentinel.success →
        handle s request = some (request.frame.SetData d)) ∧
      (e ≠ ExcPtr.sentinel Sentinel.success →
        handle s request =
          Option.map (fun code => (request.frame.SetData d).SetException code)
            e.deref)) := by
  constructor
  · intro h hreg hres
    constructor
    · intro he
      simp [handle, hreg, hres, he, TCPFrame.Copy]
    · intro he
      cases hd : e.deref with
      | none => simp [handle, hreg, hres, he, hd, TCPFrame.Copy]
      | some code => simp [handle, hreg, hres, he, hd, TCPFrame.Copy]
  · intro h hnone hreg hres
    constructor
    · intro he
      simp [handle, hnone, hreg, hres, he, TCPFrame.Copy]
    · intro he
      cases hd : e.deref with
      | none => simp [handle, hnone, hreg, hres, he, hd, TCPFrame.Copy]
      | some code => simp [handle, hnone, hreg, hres, he, hd, TCPFrame.Copy]

/-- Witness for the amended C4, exercising both handler paths: a
native handler returning a freshly allocated exception with numeric
code 0 (the code of `Success`) still produces an exception-marked
response with payload byte 0; a context handler returning a nil
exception pointer produces no response; a context handler returning
the `Success` sentinel produces the plain data response. -/
theorem set_exception_iff_not_success_witness :
    serverFresh.function 7 = some fresh0Handler ∧
    fresh0Handler serverFresh.banks req7.frame = ([2], ExcPtr.fresh 0) ∧
    ExcPtr.fresh 0 ≠ ExcPtr.sentinel Sentinel.success ∧
    handle serverFresh req7 =
      Option.map (fun code => (req7.frame.SetData [2]).SetException code)
        (ExcPtr.fresh 0).deref ∧
    serverCtxNil.function 7 = none ∧
    serverCtxNil.handlers 7 = some ctxNilHandler ∧
    handle serverCtxNil req7 =
      Option.map (fun code => (req7.frame.SetData []).SetException code)
        ExcPtr.nil.deref ∧
    serverCtxOk.handlers 9 = some ctxOkHandler ∧
    handle serverCtxOk req9 = some (req9.frame.SetData [6]) := by
  refine ⟨rfl, rfl, by decide, ?_, rfl, rfl, ?_, rfl, ?_⟩
  · exact ((set_exception_iff_not_success serverFresh req7 [2]
      (ExcPtr.fresh 0)).1 fresh0Handler rfl rfl).2 (by decide)
  · exact ((set_exception_iff_not_success serverCtxNil req7 []
      ExcPtr.nil).2 ctxNilHandler rfl rfl rfl).2 (by decide)
  · exact ((set_exception_iff_not_success serverCtxOk req9 [6]
      (ExcPtr.sentinel Sentinel.success)).2 ctxOkHandler rfl rfl rfl).1 rfl

/-- C5: a handler invocation returning a non-Success exception with
numeric code `code` yields a response whose function code is the
request function code OR 0x80 and whose payload is exactly the one
byte `code`, whatever data bytes the handler also returned.  Both the
native and the context handler paths are covered. -/
theorem exception_response_encoding (s : Server) (request : Request)
    (d : List Nat) (e : ExcPtr) (code : Nat)
    (hne : e ≠ ExcPtr.sentinel Sentinel.success)
    (hcode : e.deref = some code) :
    (∀ h : FunctionHandler, s.function request.frame.GetFunction = some h →
      h s.banks request.frame = (d, e) →
      handle s request =
        some { request.frame with
                function := request.frame.function ||| 128, data := [code] }) ∧
    (∀ h : ContextFunctionHandler,
      s.function request.frame.GetFunction = none →
      s.handlers request.frame.GetFunction = some h →
      h request.ctx request.frame = (d, e) →
      handle s request =
        some { request.frame with
                function := request.frame.function ||| 128, data := [code] }) := by
  constructor
  · intro h hreg hres
    simp [handle, hreg, hres, hne, hcode, TCPFrame.Copy, TCPFrame.SetData,
      TCPFrame.SetException]
  · intro h hnone hreg hres
    simp [handle, hnone, hreg, hres, hne, hcode, TCPFrame.Copy,
      TCPFrame.SetData, TCPFrame.SetException]

/-- Witness for C5: a handler returning data [9, 9] together with the
SlaveDeviceFailure exception produces the exception frame with payload
[4]; the data bytes are ignored. -/
theorem exception_response_encoding_witness :
    ExcPtr.sentinel Sentinel.slaveDeviceFailure ≠
      ExcPtr.sentinel Sentinel.success ∧
    (ExcPtr.sentinel Sentinel.slaveDeviceFailure).deref = some 4 ∧
    handle serverFail req3 =
      some { req3.frame with
              function := req3.frame.function ||| 128, data := [4] } :=
  ⟨by decide, rfl,
    (exception_response_encoding serverFail req3 [9, 9]
      (ExcPtr.sentinel Sentinel.slaveDeviceFailure) 4 (by decide) rfl).1
      failHandler rfl rfl⟩

/-- C7: when a native handler is registered for the request function
code, `handle` invokes it: the result is determined by the native
handler alone, and the context handler table is never consulted (the
response is unchanged under any replacement of that table). -/
theorem native_handler_precedence (s : Server) (request : Request)
    (h : FunctionHandler)
    (hreg : s.function request.frame.GetFunction = some h) :
    handle s request = respondWith request.frame (h s.banks request.frame) ∧
    ∀ g : Nat → Option ContextFunctionHandler,
      handle { s with handlers := g } request = handle s request := by
  constructor
  · simp [handle, respondWith, hreg]
  · intro g
    simp [handle, hreg]

/-- Witness for C7: with both a native and a context handler
registered for code 5 the native result [10] is returned, not the
context result [20], and erasing the context table changes nothing. -/
theorem native_handler_precedence_witness :
    serverBoth.function 5 = some nativeFive ∧
    serverBoth.handlers 5 = some ctxFive ∧
    handle serverBoth req5 =
      respondWith req5.frame (nativeFive serverBoth.banks req5.frame) ∧
    handle serverBoth req5 = some { req5.frame with data := [10] } ∧
    handle { serverBoth with handlers := fun _ => none } req5 =
      handle serverBoth req5 := by
  have h := native_handler_precedence serverBoth req5 nativeFive rfl
  exact ⟨rfl, rfl, h.1, by decide, h.2 (fun _ => none)⟩

/-- C9: a server built by `NewServer` has all four register banks nil
and no handler of either kind registered, and every request whose
function code is a byte is answered with the IllegalFunction exception
response. -/
theorem new_server_empty :
    NewServer.banks.DiscreteInputs = none ∧
    NewServer.banks.Coils = none ∧
    NewServer.banks.HoldingRegisters = none ∧
    NewServer.banks.InputRegisters = none ∧
    (∀ fn : Nat, NewServer.function fn = none ∧ NewServer.handlers fn = none) ∧
    ∀ request : Request, request.frame.function < 256 →
      handle NewServer request =
        some { request.frame with
                function := request.frame.function ||| 128,
                data := [Sentinel.illegalFunction.code] } := by
  refine ⟨rfl, rfl, rfl, rfl, fun fn => ⟨rfl, rfl⟩, fun request _ => ?_⟩
  exact handle_no_handler rfl rfl

/-- Witness for C9 at function code 200, a code with no default
handler anywhere. -/
theorem new_server_empty_witness :
    (200 : Nat) < 256 ∧
    handle NewServer ⟨[], 0, ⟨0, 0, 1, 200, []⟩⟩ =
      some ⟨0, 0, 1, 200 ||| 128, [1]⟩ := by
  refine ⟨by decide, ?_⟩
  have h := new_server_empty.2.2.2.2.2 ⟨[], 0, ⟨0, 0, 1, 200, []⟩⟩ (by decide)
  rw [h]
  rfl

/-! ### Identity extraction theorems -/

/-- Scanning extensions none of which carries the role identifier
leaves the accumulator unchanged. -/
theorem scanExts_no_match (cn : String) (acc : String × Option (List Nat))
    (exts : List Extension) (h : ∀ e ∈ exts, e.Id ≠ roleID) :
    scanExts cn acc exts = acc := by
  induction exts with
  | nil => rfl
  | cons e t ih =>
    simp only [scanExts]
    rw [if_neg (h e (List.mem_cons_self e t))]
    exact ih fun e' he' => h e' (List.mem_cons_of_mem e he')

/-- Scanning extensions whose last occurrence of the role identifier
is `ext` yields the common name and the value of `ext`, whatever the
accumulator. -/
theorem scanExts_last_match (cn : String) (acc : String × Option (List Nat))
    (pre : List Extension) (ext : Extension) (post : List Extension)
    (hid : ext.Id = roleID) (hpost : ∀ e ∈ post, e.Id ≠ roleID) :
    scanExts cn acc (pre ++ ext :: post) = (cn, some ext.Value) := by
  induction pre generalizing acc with
  | nil =>
    simp only [List.nil_append, scanExts]
    rw [if_pos hid]
    exact scanExts_no_match cn _ post hpost
  | cons a pre ih =>
    simp only [List.cons_append, scanExts]
    by_cases ha : a.Id = roleID
    · rw [if_pos ha]
      exact ih _
    · rw [if_neg ha]
      exact ih _

/-- The certificate scan on a single certificate whose extension list
contains the role extension, with no later occurrence. -/
theorem scanCerts_single (c : Certificate) (pre : List Extension)
    (ext : Extension) (post : List Extension)
    (hexts : c.Extensions = pre ++ ext :: post) (hid : ext.Id = roleID)
    (hpost : ∀ e ∈ post, e.Id ≠ roleID) :
    scanCerts [c] = (c.CommonName, some ext.Value) := by
  simp only [scanCerts, scanCerts.go]
  rw [hexts]
  exact scanExts_last_match c.CommonName _ pre ext post hid hpost

/-- The certificate scan when no certificate carries the role
extension: user stays empty, role stays nil. -/
theorem scanCerts_no_role (certs : List Certificate)
    (h : ∀ c ∈ certs, ∀ e ∈ c.Extensions, e.Id ≠ roleID) :
    scanCerts certs = ("", none) := by
  have hgo : ∀ (cs : List Certificate), (∀ c ∈ cs, ∀ e ∈ c.Extensions, e.Id ≠ roleID) →
      ∀ acc : String × Option (List Nat), scanCerts.go acc cs = acc := by
    intro cs
    induction cs with
    | nil => intro _ acc; rfl
    | cons c t ih =>
      intro hcs acc
      simp only [scanCerts.go]
      rw [scanExts_no_match c.CommonName acc c.Extensions
        (hcs c (List.mem_cons_self c t))]
      exact ih (fun c' hc' => hcs c' (List.mem_cons_of_mem c hc')) acc
  exact hgo certs h ("", none)

/-- C6: on a TLS connection whose peer certificate carries the fixed
role extension (object identifier 1.3.6.1.4.1.50316.802.1), every
request context built on that connection exposes the extension value
under "Modbus-Role" and the certificate subject common name under
"Modbus-User"; when no peer certificate carries the extension the scan
stays at its initial value, no role or user binding is attached, and
the context is still built (extraction degrades gracefully, not
fatally). -/
theorem role_propagation (host : Option String) :
    (∀ (c : Certificate) (pre : List Extension) (ext : Extension)
       (post : List Extension),
      c.Extensions = pre ++ ext :: post → ext.Id = roleID →
      (∀ e ∈ post, e.Id ≠ roleID) →
      ctxValue (buildCtx host (scanCerts [c]).1 (scanCerts [c]).2)
          "Modbus-Role" = some (CtxVal.bytes ext.Value) ∧
      ctxValue (buildCtx host (scanCerts [c]).1 (scanCerts [c]).2)
          "Modbus-User" = some (CtxVal.str c.CommonName)) ∧
    (∀ certs : List Certificate,
      (∀ c ∈ certs, ∀ e ∈ c.Extensions, e.Id ≠ roleID) →
      scanCerts certs = ("", none) ∧
      ctxValue (buildCtx host (scanCerts certs).1 (scanCerts certs).2)
          "Modbus-Role" = none ∧
      ctxValue (buildCtx host (scanCerts certs).1 (scanCerts certs).2)
          "Modbus-User" = none) := by
  constructor
  · intro c pre ext post hexts hid hpost
    rw [scanCerts_single c pre ext post hexts hid hpost]
    cases host <;> simp [buildCtx, ctxValue]
  · intro certs hcerts
    have hscan := scanCerts_no_role certs hcerts
    refine ⟨hscan, ?_, ?_⟩ <;>
      · rw [hscan]
        cases host <;> simp [buildCtx, ctxValue]

/-- Witness for C6: a certificate with the role extension set to the
bytes of "operator" propagates role and identity into the context; a
certificate without it leaves both bindings absent. -/
theorem role_propagation_witness :
    opCert.Extensions = [] ++ (⟨roleID, operatorBytes⟩ : Extension) :: [] ∧
    ctxValue (buildCtx (some "10.0.0.9") (scanCerts [opCert]).1
        (scanCerts [opCert]).2) "Modbus-Role" =
      some (CtxVal.bytes operatorBytes) ∧
    ctxValue (buildCtx (some "10.0.0.9") (scanCerts [opCert]).1
        (scanCerts [opCert]).2) "Modbus-User" =
      some (CtxVal.str "alice") ∧
    scanCerts [plainCert] = ("", none) ∧
    ctxValue (buildCtx (some "10.0.0.9") (scanCerts [plainCert]).1
        (scanCerts [plainCert]).2) "Modbus-Role" = none := by
  have h1 := (role_propagation (some "10.0.0.9")).1 opCert []
    ⟨roleID, operatorBytes⟩ [] rfl rfl (by simp)
  have h2 := (role_propagation (some "10.0.0.9")).2 [plainCert] (by decide)
  exact ⟨rfl, h1.1, h1.2, h2.1, h2.2.1⟩

/-! ### Read loop theorems -/

/-- C8: the read loop of one connection stops at the first failing
read.  A non-EOF transport read error is logged and the loop returns;
EOF ends the loop with no log line; a frame decode failure is logged
and the loop returns.  In all three cases no request is submitted for
the failing read (so no response is ever written for it) and the
remaining read outcomes of this connection are never processed; the
loop of any other connection is a separate function application and is
unaffected. -/
theorem read_loop_error_termination (host : Option String) (user : String)
    (role : Option (List Nat)) (connId : Nat) (rest : List ReadResult) :
    (∀ msg, readLoop host user role connId (ReadResult.err msg :: rest) =
      [LoopEvent.logLine ("read error " ++ msg), LoopEvent.terminated]) ∧
    (readLoop host user role connId (ReadResult.eof :: rest) =
      [LoopEvent.terminated]) ∧
    (∀ bytes e, NewTCPFrame bytes = Except.error e →
      readLoop host user role connId (ReadResult.ok bytes :: rest) =
        [LoopEvent.logLine ("bad packet error " ++ e), LoopEvent.terminated]) := by
  refine ⟨fun msg => rfl, rfl, fun bytes e he => ?_⟩
  simp [readLoop, he]

/-- Witness for C8: a three-byte packet fails to decode; the loop logs
the bad packet and terminates without submitting anything, ignoring
the rest of the input. -/
theorem read_loop_error_termination_witness :
    NewTCPFrame [1, 2, 3] = Except.error "frame too short" ∧
    readLoop none "" none 4 [ReadResult.ok [1, 2, 3], ReadResult.eof] =
      [LoopEvent.logLine ("bad packet error " ++ "frame too short"),
        LoopEvent.terminated] :=
  ⟨rfl, (read_loop_error_termination none "" none 4 [ReadResult.eof]).2.2
    [1, 2, 3] "frame too short" rfl⟩

/-- Helper: a successfully decoded packet has at least the eight
envelope-plus-function bytes and its payload is the rest. -/
theorem NewTCPFrame_ok_data {b : List Nat} {f : TCPFrame}
    (h : NewTCPFrame b = Except.ok f) : 8 ≤ b.length ∧ f.data = b.drop 8 := by
  by_cases h8 : b.length < 8
  · rw [NewTCPFrame, if_pos h8] at h
    exact absurd h (by simp)
  · rw [NewTCPFrame, if_neg h8] at h
    by_cases hp : be16 (b.getD 2 0) (b.getD 3 0) ≠ 0
    · rw [if_pos hp] at h
      exact absurd h (by simp)
    · rw [if_neg hp] at h
      by_cases hl : be16 (b.getD 4 0) (b.getD 5 0) ≠ b.length - 6
      · rw [if_pos hl] at h
        exact absurd h (by simp)
      · rw [if_neg hl] at h
        injection h with h'
        exact ⟨by omega, by rw [← h']⟩

/-- C10: every request submitted by the read loop was decoded from the
bytes of exactly one read: there exists a single read outcome whose
bytes (at most 512 of them, the buffer size) decode to the submitted
frame, whose payload therefore has at most 504 bytes.  No bytes are
carried across reads, so a frame split across reads or longer than 512
bytes is never decoded as a single frame. -/
theorem single_read_framing (host : Option String) (user : String)
    (role : Option (List Nat)) (connId : Nat) (rs : List ReadResult)
    (h512 : ∀ b : List Nat, ReadResult.ok b ∈ rs → b.length ≤ 512) :
    ∀ req : Request, LoopEvent.submit req ∈ readLoop host user role connId rs →
      ∃ b : List Nat, ReadResult.ok b ∈ rs ∧ b.length ≤ 512 ∧
        NewTCPFrame b = Except.ok req.frame ∧ req.frame.data.length ≤ 504 := by
  induction rs with
  | nil =>
    intro req hmem
    simp [readLoop] at hmem
  | cons r rest ih =>
    intro req hmem
    cases r with
    | eof => simp [readLoop] at hmem
    | err msg => simp [readLoop] at hmem
    | ok bytes =>
      have hb : bytes.length ≤ 512 :=
        h512 bytes (List.mem_cons_self _ rest)
      cases hf : NewTCPFrame bytes with
      | error e =>
        simp [readLoop, hf] at hmem
      | ok frame =>
        simp only [readLoop, hf, List.mem_cons] at hmem
        cases hmem with
        | inl heq =>
          injection heq with heq'
          subst heq'
          obtain ⟨h8, hdata⟩ := NewTCPFrame_ok_data hf
          refine ⟨bytes, List.mem_cons_self _ rest, hb, hf, ?_⟩
          rw [hdata, List.length_drop]
          omega
        | inr hrec =>
          obtain ⟨b, hbmem, hble, hbdec, hdlen⟩ :=
            ih (fun b hbm => h512 b (List.mem_cons_of_mem _ hbm)) req hrec
          exact ⟨b, List.mem_cons_of_mem _ hbmem, hble, hbdec, hdlen⟩

/-- Witness for C10: the loop on one well-formed nine-byte packet
submits the frame it encodes, and that frame indeed decodes from the
single read. -/
theorem single_read_framing_witness :
    (∀ b : List Nat, ReadResult.ok b ∈ [ReadResult.ok goodPacket] →
      b.length ≤ 512) ∧
    LoopEvent.submit ⟨[], 4, goodFrame⟩ ∈
      readLoop none "" none 4 [ReadResult.ok goodPacket] ∧
    ∃ b : List Nat, ReadResult.ok b ∈ [ReadResult.ok goodPacket] ∧
      b.length ≤ 512 ∧ NewTCPFrame b = Except.ok goodFrame ∧
      goodFrame.data.length ≤ 504 := by
  have hb512 : ∀ b : List Nat, ReadResult.ok b ∈ [ReadResult.ok goodPacket] →
      b.length ≤ 512 := by
    intro b hb
    simp only [List.mem_singleton] at hb
    injection hb with h'
    subst h'
    decide
  refine ⟨hb512, by decide, ?_⟩
  exact single_read_framing none "" none 4 [ReadResult.ok goodPacket]
    hb512 ⟨[], 4, goodFrame⟩ (by decide)

end Mbserver
